import Mathlib

/-!
Verification of the AutoTradePro-Crypto key-generation scripts
(`src/backend/generate_keys.py` and `src/backend/generate_ed25519_seed.py`).

Both scripts draw a fresh 32-byte Ed25519 seed (`SigningKey.generate()`),
derive the corresponding verification key, base64-encode both 32-byte
values with the standard alphabet and `=` padding, and print them as two
labeled lines on standard output.

The embedding below models bytes as `Nat` values below 256, byte strings
as `List Nat`, the process-provided secure random source as an explicit
`Option (List Nat)` input (`none` models `EntropyUnavailable`), and a
script run as a pure function from that input to the emitted stdout lines
and the process exit code.
-/

namespace AutoTradeProCrypto

/-! ## Base64 (standard alphabet, `=` padding), as used by `base64.b64encode` -/

/-- The standard base64 alphabet, in index order, as used by Python's
`base64.b64encode` (RFC 4648 section 4: `A`-`Z`, `a`-`z`, `0`-`9`, `+`, `/`). -/
def b64alphabet : List Char :=
  ['A', 'B', 'C', 'D', 'E', 'F', 'G', 'H', 'I', 'J', 'K', 'L', 'M',
   'N', 'O', 'P', 'Q', 'R', 'S', 'T', 'U', 'V', 'W', 'X', 'Y', 'Z',
   'a', 'b', 'c', 'd', 'e', 'f', 'g', 'h', 'i', 'j', 'k', 'l', 'm',
   'n', 'o', 'p', 'q', 'r', 's', 't', 'u', 'v', 'w', 'x', 'y', 'z',
   '0', '1', '2', '3', '4', '5', '6', '7', '8', '9', '+', '/']

/-- Character for a 6-bit group. -/
def b64char (n : Nat) : Char := b64alphabet.getD n '?'

/-- Index of a character in the base64 alphabet (inverse of `b64char`). -/
def b64value (c : Char) : Option Nat := b64alphabet.findIdx? (fun x => x = c)

/-- Base64 encoding of a byte list, 3 bytes to 4 characters, with `=`
padding on a final 1- or 2-byte group, exactly as `base64.b64encode`. -/
def b64encodeChunks : List Nat → List Char
  | b1 :: b2 :: b3 :: rest =>
      let n := b1 * 65536 + b2 * 256 + b3
      b64char (n / 262144) :: b64char (n / 4096 % 64) :: b64char (n / 64 % 64) ::
        b64char (n % 64) :: b64encodeChunks rest
  | [b1, b2] =>
      let n := b1 * 1024 + b2 * 4
      [b64char (n / 4096), b64char (n / 64 % 64), b64char (n % 64), '=']
  | [b1] =>
      let n := b1 * 16
      [b64char (n / 64), b64char (n % 64), '=', '=']
  | [] => []

/-- Base64 encoding as a string, `base64.b64encode(..).decode()`. -/
def b64encode (bs : List Nat) : String := String.mk (b64encodeChunks bs)

/-- Base64 decoding of a character list, 4 characters to 3 bytes, accepting
`=` padding only at the very end (strict RFC 4648 decoding, the format
`base64.b64decode` accepts for data produced by `b64encode`). -/
def b64decodeChunks : List Char → Option (List Nat)
  | [] => some []
  | c1 :: c2 :: c3 :: c4 :: rest =>
      (b64value c1).bind fun v1 =>
      (b64value c2).bind fun v2 =>
      if c3 = '=' then
        if c4 = '=' ∧ rest = [] then some [v1 * 4 + v2 / 16] else none
      else
        (b64value c3).bind fun v3 =>
        if c4 = '=' then
          if rest = [] then some [v1 * 4 + v2 / 16, v2 % 16 * 16 + v3 / 4]
          else none
        else
          (b64value c4).bind fun v4 =>
          (b64decodeChunks rest).map fun bs =>
            (v1 * 4 + v2 / 16) :: (v2 % 16 * 16 + v3 / 4) ::
              (v3 % 4 * 64 + v4) :: bs
  | _ => none

/-- Base64 decoding of a string. -/
def b64decode (s : String) : Option (List Nat) := b64decodeChunks s.data

/-- A byte list is valid when every entry is an actual byte value. -/
def allBytes (bs : List Nat) : Prop := ∀ b ∈ bs, b < 256

instance (bs : List Nat) : Decidable (allBytes bs) := by
  unfold allBytes; infer_instance

/-! ## SHA-512 (FIPS 180-4), needed by the Ed25519 derivation -/

/-- Truncation to a 64-bit word. -/
def w64 (n : Nat) : Nat := n % 18446744073709551616

/-- Right rotation of a 64-bit word. -/
def rotr64 (k x : Nat) : Nat := w64 ((x >>> k) ||| (x <<< (64 - k)))

/-- Bitwise complement of a 64-bit word. -/
def not64 (x : Nat) : Nat := 18446744073709551615 ^^^ x

/-- SHA-512 round-constant table K (FIPS 180-4, section 4.2.3), the 80
word values written in decimal. -/
def sha512K : List Nat :=
  [4794697086780616226, 8158064640168781261, 13096744586834688815,
   16840607885511220156, 4131703408338449720, 6480981068601479193,
   10538285296894168987, 12329834152419229976, 15566598209576043074,
   1334009975649890238, 2608012711638119052, 6128411473006802146,
   8268148722764581231, 9286055187155687089, 11230858885718282805,
   13951009754708518548, 16472876342353939154, 17275323862435702243,
   1135362057144423861, 2597628984639134821, 3308224258029322869,
   5365058923640841347, 6679025012923562964, 8573033837759648693,
   10970295158949994411, 12119686244451234320, 12683024718118986047,
   13788192230050041572, 14330467153632333762, 15395433587784984357,
   489312712824947311, 1452737877330783856, 2861767655752347644,
   3322285676063803686, 5560940570517711597, 5996557281743188959,
   7280758554555802590, 8532644243296465576, 9350256976987008742,
   10552545826968843579, 11727347734174303076, 12113106623233404929,
   14000437183269869457, 14369950271660146224, 15101387698204529176,
   15463397548674623760, 17586052441742319658, 1182934255886127544,
   1847814050463011016, 2177327727835720531, 2830643537854262169,
   3796741975233480872, 4115178125766777443, 5681478168544905931,
   6601373596472566643, 7507060721942968483, 8399075790359081724,
   8693463985226723168, 9568029438360202098, 10144078919501101548,
   10430055236837252648, 11840083180663258601, 13761210420658862357,
   14299343276471374635, 14566680578165727644, 15097957966210449927,
   16922976911328602910, 17689382322260857208, 500013540394364858,
   748580250866718886, 1242879168328830382, 1977374033974150939,
   2944078676154940804, 3659926193048069267, 4368137639120453308,
   4836135668995329356, 5532061633213252278, 6448918945643986474,
   6902733635092675308, 7801388544844847127]

/-- Working state of the SHA-512 compression function. -/
structure Sha512State where
  a : Nat
  b : Nat
  c : Nat
  d : Nat
  e : Nat
  f : Nat
  g : Nat
  h : Nat
deriving Repr, DecidableEq

/-- SHA-512 initial hash value H0 (FIPS 180-4, section 5.3.5), the eight
word values written in decimal. -/
def sha512H0 : Sha512State :=
  { a := 7640891576956012808, b := 13503953896175478587,
    c := 4354685564936845355, d := 11912009170470909681,
    e := 5840696475078001361, f := 11170449401992604703,
    g := 2270897969802886507, h := 6620516959819538809 }

/-- Big-endian byte rendering of a number, most significant byte first,
exactly `k` bytes. -/
def natToBEBytes : Nat → Nat → List Nat
  | 0, _ => []
  | k + 1, n => natToBEBytes k (n / 256) ++ [n % 256]

/-- Little-endian byte rendering of a number, exactly `k` bytes. -/
def natToLEBytes : Nat → Nat → List Nat
  | 0, _ => []
  | k + 1, n => n % 256 :: natToLEBytes k (n / 256)

/-- Number represented by a little-endian byte list. -/
def leBytesToNat : List Nat → Nat
  | [] => 0
  | b :: rest => b + 256 * leBytesToNat rest

/-- SHA-512 message padding: append `0x80`, zeros, then the bit length as
a 16-byte big-endian field, reaching a multiple of 128 bytes. -/
def sha512pad (msg : List Nat) : List Nat :=
  let l := msg.length
  let zeros := (128 - (l + 17) % 128) % 128
  msg ++ [0x80] ++ List.replicate zeros 0 ++ natToBEBytes 16 (8 * l)

/-- Big-endian 64-bit words from a byte list (groups of eight). -/
def bytesToWordsBE : List Nat → List Nat
  | b0 :: b1 :: b2 :: b3 :: b4 :: b5 :: b6 :: b7 :: rest =>
      (((((((b0 * 256 + b1) * 256 + b2) * 256 + b3) * 256 + b4) * 256 + b5) * 256
        + b6) * 256 + b7) :: bytesToWordsBE rest
  | _ => []

/-- SHA-512 small sigma 0. -/
def sSigma0 (x : Nat) : Nat := rotr64 1 x ^^^ rotr64 8 x ^^^ (x >>> 7)

/-- SHA-512 small sigma 1. -/
def sSigma1 (x : Nat) : Nat := rotr64 19 x ^^^ rotr64 61 x ^^^ (x >>> 6)

/-- SHA-512 big Sigma 0. -/
def bSigma0 (x : Nat) : Nat := rotr64 28 x ^^^ rotr64 34 x ^^^ rotr64 39 x

/-- SHA-512 big Sigma 1. -/
def bSigma1 (x : Nat) : Nat := rotr64 14 x ^^^ rotr64 18 x ^^^ rotr64 41 x

/-- Message-schedule extension: given the schedule so far in reverse order,
push the next word, `k` times (FIPS 180-4, section 6.4.2 step 1). -/
def sha512ExtendLoop : Nat → List Nat → List Nat
  | 0, ws => ws
  | k + 1, ws =>
      let wt2 := ws.getD 1 0
      let wt7 := ws.getD 6 0
      let wt15 := ws.getD 14 0
      let wt16 := ws.getD 15 0
      sha512ExtendLoop k (w64 (sSigma1 wt2 + wt7 + sSigma0 wt15 + wt16) :: ws)

/-- Full 80-word message schedule of one 16-word block. -/
def sha512Schedule (block : List Nat) : List Nat :=
  (sha512ExtendLoop 64 block.reverse).reverse

/-- The 80 SHA-512 rounds, consuming schedule and constant words in step. -/
def sha512Rounds : List Nat → List Nat → Sha512State → Sha512State
  | w :: ws, kc :: ks, st =>
      let ch := (st.e &&& st.f) ^^^ (not64 st.e &&& st.g)
      let maj := (st.a &&& st.b) ^^^ (st.a &&& st.c) ^^^ (st.b &&& st.c)
      let t1 := w64 (st.h + bSigma1 st.e + ch + kc + w)
      let t2 := w64 (bSigma0 st.a + maj)
      sha512Rounds ws ks
        { a := w64 (t1 + t2), b := st.a, c := st.b, d := st.c,
          e := w64 (st.d + t1), f := st.e, g := st.f, h := st.g }
  | _, _, st => st

/-- Compression of one 16-word block into the running hash state. -/
def sha512Compress (st : Sha512State) (block : List Nat) : Sha512State :=
  let r := sha512Rounds (sha512Schedule block) sha512K st
  { a := w64 (st.a + r.a), b := w64 (st.b + r.b), c := w64 (st.c + r.c),
    d := w64 (st.d + r.d), e := w64 (st.e + r.e), f := w64 (st.f + r.f),
    g := w64 (st.g + r.g), h := w64 (st.h + r.h) }

/-- Fold the compression function over `k` consecutive 16-word blocks. -/
def sha512Fold : Nat → List Nat → Sha512State → Sha512State
  | 0, _, st => st
  | k + 1, ws, st => sha512Fold k (ws.drop 16) (sha512Compress st (ws.take 16))

/-- SHA-512 digest of a byte list, as 64 bytes. -/
def sha512 (msg : List Nat) : List Nat :=
  let ws := bytesToWordsBE (sha512pad msg)
  let st := sha512Fold (ws.length / 16) ws sha512H0
  natToBEBytes 8 st.a ++ natToBEBytes 8 st.b ++ natToBEBytes 8 st.c ++
    natToBEBytes 8 st.d ++ natToBEBytes 8 st.e ++ natToBEBytes 8 st.f ++
    natToBEBytes 8 st.g ++ natToBEBytes 8 st.h

/-! ## Ed25519 public-key derivation (RFC 8032)

Modelled from the spec: the scripts call PyNaCl's `SigningKey.verify_key`
(libsodium `crypto_sign_seed_keypair`), whose code is not part of this
repository. The spec prescribes "the standard Ed25519 derivation (scalar
clamping + scalar multiplication on the curve base point, per the Ed25519
specification)"; the definitions below follow RFC 8032 section 5.1.5. -/

/-- The field prime of Curve25519, `2^255 - 19`. -/
def p25519 : Nat := 2 ^ 255 - 19

/-- The twisted-Edwards curve constant d of edwards25519. -/
def d25519 : Nat :=
  37095705934669439343138083508754565189542113879843219016388785533085940283555

/-- A curve point in extended homogeneous coordinates (X, Y, Z, T). -/
structure Ed25519Point where
  x : Nat
  y : Nat
  z : Nat
  t : Nat
deriving Repr, DecidableEq

/-- Field addition modulo `p25519`. -/
def fadd (a b : Nat) : Nat := (a + b) % p25519

/-- Field subtraction modulo `p25519` (inputs need not be reduced). -/
def fsub (a b : Nat) : Nat := (a % p25519 + p25519 - b % p25519) % p25519

/-- Field multiplication modulo `p25519`. -/
def fmul (a b : Nat) : Nat := a * b % p25519

/-- Modular exponentiation by squaring (fuel-bounded over the exponent bits). -/
def fpowAux : Nat → Nat → Nat → Nat → Nat
  | 0, _, _, acc => acc
  | fuel + 1, b, e, acc =>
      if e = 0 then acc
      else fpowAux fuel (b * b % p25519) (e / 2)
        (if e % 2 = 1 then acc * b % p25519 else acc)

/-- Field exponentiation modulo `p25519`. -/
def fpow (b e : Nat) : Nat := fpowAux 256 (b % p25519) e 1

/-- Field inversion via Fermat's little theorem, `x^(p-2)`. -/
def finv (x : Nat) : Nat := fpow x (p25519 - 2)

/-- Point addition in extended coordinates (RFC 8032, section 5.1.4);
the formula is complete, so it also serves for doubling. -/
def pointAdd (P Q : Ed25519Point) : Ed25519Point :=
  let A := fmul (fsub P.y P.x) (fsub Q.y Q.x)
  let B := fmul (fadd P.y P.x) (fadd Q.y Q.x)
  let C := fmul (fmul (fmul 2 P.t) Q.t) d25519
  let D := fmul (fmul 2 P.z) Q.z
  let E := fsub B A
  let F := fsub D C
  let G := fadd D C
  let H := fadd B A
  { x := fmul E F, y := fmul G H, z := fmul F G, t := fmul E H }

/-- The neutral element of the curve group. -/
def pointZero : Ed25519Point := { x := 0, y := 1, z := 1, t := 0 }

/-- The edwards25519 base point B (RFC 8032, section 5.1). -/
def pointBase : Ed25519Point :=
  { x := 15112221349535400772501151409588531511454012693041857206046113283949847762202,
    y := 46316835694926478169428394003475163141307993866256225615783033603165251855960,
    z := 1,
    t := fmul 15112221349535400772501151409588531511454012693041857206046113283949847762202
           46316835694926478169428394003475163141307993866256225615783033603165251855960 }

/-- Double-and-add scalar multiplication, fuel-bounded over the scalar bits. -/
def pointMulAux : Nat → Nat → Ed25519Point → Ed25519Point → Ed25519Point
  | 0, _, _, q => q
  | fuel + 1, s, pt, q =>
      if s = 0 then q
      else pointMulAux fuel (s / 2) (pointAdd pt pt)
        (if s % 2 = 1 then pointAdd q pt else q)

/-- Scalar multiplication `s * P` on edwards25519. -/
def pointMul (s : Nat) (P : Ed25519Point) : Ed25519Point :=
  pointMulAux 256 s P pointZero

/-- Point compression: 32 little-endian bytes of the affine y coordinate
with the parity of x in the top bit (RFC 8032, section 5.1.2). -/
def pointCompress (P : Ed25519Point) : List Nat :=
  let zinv := finv P.z
  let x := fmul P.x zinv
  let y := fmul P.y zinv
  natToLEBytes 32 (y + x % 2 * 2 ^ 255)

/-- Scalar clamping of the first half of the seed hash: clear the three
low bits, clear the top bit, set bit 254 (RFC 8032, section 5.1.5). -/
def clampScalar (n : Nat) : Nat := 2 ^ 254 + n % 2 ^ 254 / 8 * 8

/-- Modelled from the spec: the Ed25519 public-key derivation used by the
scripts through PyNaCl's `SigningKey.verify_key` (not part of this
repository): hash the seed with SHA-512, clamp the first 32 bytes into a
scalar, multiply the base point, compress (RFC 8032, section 5.1.5). -/
def ed25519Derive (seed : List Nat) : List Nat :=
  let h := sha512 seed
  let a := clampScalar (leBytesToNat (h.take 32))
  pointCompress (pointMul a pointBase)

/-! ## The two scripts as pure functions of the entropy draw

`SigningKey.generate()` draws 32 bytes from the platform's secure random
source. The draw is modelled as an explicit `Option (List Nat)` input:
`some seed` is a successful draw, `none` models `EntropyUnavailable`.
A script run records the lines written to standard output and the process
exit code; when the draw fails, the uncaught exception aborts the script
before any `print` executes (CPython semantics), so no lines are emitted
and the interpreter exits with a non-zero status. -/

/-- Observable outcome of one script invocation: the lines written to
standard output, in order, and the process exit code. -/
structure ScriptRun where
  stdoutLines : List String
  exitCode : Nat
deriving Repr, DecidableEq

/-- Embedding of `src/backend/generate_keys.py`. Python's
`print("ED25519_PRIVATE_KEY =", private_b64)` joins its arguments with a
single space, hence the trailing space inside each label prefix. -/
def generate_keys_run (entropy : Option (List Nat)) : ScriptRun :=
  match entropy with
  | none => { stdoutLines := [], exitCode := 1 }
  | some seedBytes =>
      let signing_key := seedBytes
      let verify_key := ed25519Derive signing_key
      let private_b64 := b64encode signing_key
      let public_b64 := b64encode verify_key
      { stdoutLines := ["ED25519_PRIVATE_KEY = " ++ private_b64,
                        "ED25519_PUBLIC_KEY  = " ++ public_b64],
        exitCode := 0 }

/-- Embedding of `src/backend/generate_ed25519_seed.py`; it differs from
`generate_keys_run` only in label spacing and local variable names. -/
def generate_ed25519_seed_run (entropy : Option (List Nat)) : ScriptRun :=
  match entropy with
  | none => { stdoutLines := [], exitCode := 1 }
  | some seedBytes =>
      let signing_key := seedBytes
      let verify_key := ed25519Derive signing_key
      let seed_b64 := b64encode signing_key
      let public_b64 := b64encode verify_key
      { stdoutLines := ["ED25519_PRIVATE_KEY= " ++ seed_b64,
                        "ED25519_PUBLIC_KEY = " ++ public_b64],
        exitCode := 0 }

/-- The base64 seed string of a successful `generate_keys.py` run. -/
def seedEncoded (seed : List Nat) : String := b64encode seed

/-- The base64 public-key string of a successful `generate_keys.py` run. -/
def publicKeyEncoded (seed : List Nat) : String := b64encode (ed25519Derive seed)

/-- A sequence of independent invocations, one per entropy draw. -/
def runMany (draws : List (Option (List Nat))) : List ScriptRun :=
  draws.map generate_keys_run

/-- Erase the space characters of a string (used to compare the two
scripts' output labels modulo the cosmetic spacing difference). -/
def stripSpaces (s : String) : String :=
  String.mk (s.data.filter (fun c => c ≠ ' '))

/-- An entropy draw as `SigningKey.generate()` produces it: exactly 32
bytes, each an actual byte value. -/
def validSeed (seed : List Nat) : Prop := seed.length = 32 ∧ allBytes seed

instance (seed : List Nat) : Decidable (validSeed seed) := by
  unfold validSeed; infer_instance

/-- A concrete valid entropy draw (32 zero bytes), used as witness input. -/
def sampleSeed : List Nat := List.replicate 32 0

/-- A second concrete valid entropy draw, distinct from `sampleSeed`
(the seed of RFC 8032 test vector 1). -/
def sampleSeed2 : List Nat :=
  [0x9d, 0x61, 0xb1, 0x9d, 0xef, 0xfd, 0x5a, 0x60, 0xba, 0x84, 0x4a, 0xf4,
   0x92, 0xec, 0x2c, 0xc4, 0x44, 0x49, 0xc5, 0x69, 0x7b, 0x32, 0x69, 0x19,
   0x70, 0x3b, 0xac, 0x03, 0x1c, 0xae, 0x7f, 0x60]

/-! ## Lemmas about the base64 coder -/

/-- A defaulted lookup returns a list element or the default. -/
theorem getD_mem_or_eq (l : List Char) (n : Nat) (d : Char) :
    l.getD n d ∈ l ∨ l.getD n d = d := by
  induction l generalizing n with
  | nil => right; simp [List.getD]
  | cons a as ih =>
      cases n with
      | zero => left; simp
      | succ m =>
          rcases ih m with h | h
          · left
            rw [List.getD_cons_succ]
            exact List.mem_cons_of_mem a h
          · right
            rw [List.getD_cons_succ]
            exact h

/-- No alphabet character is the padding character. -/
theorem b64char_ne_pad (k : Nat) : b64char k ≠ '=' := by
  unfold b64char
  rcases getD_mem_or_eq b64alphabet k '?' with h | h
  · intro he
    rw [he] at h
    exact absurd h (by decide)
  · intro he
    exact absurd (he.symm.trans h) (by decide)

/-- In-range alphabet characters belong to the alphabet list. -/
theorem b64char_mem (k : Nat) (h : k < 64) : b64char k ∈ b64alphabet := by
  revert k
  decide

/-- `b64value` inverts `b64char` on 6-bit values. -/
theorem b64value_b64char (k : Nat) (h : k < 64) : b64value (b64char k) = some k := by
  revert k
  decide

/-- Decoding inverts encoding on byte lists. -/
theorem b64decodeChunks_b64encodeChunks (bs : List Nat) (h : allBytes bs) :
    b64decodeChunks (b64encodeChunks bs) = some bs := by
  induction bs using b64encodeChunks.induct with
  | case1 b1 b2 b3 rest ih =>
      have hb1 : b1 < 256 := h b1 (by simp)
      have hb2 : b2 < 256 := h b2 (by simp)
      have hb3 : b3 < 256 := h b3 (by simp)
      have hrest : allBytes rest := fun b hb => h b (by simp [hb])
      simp only [b64encodeChunks, b64decodeChunks]
      rw [b64value_b64char _ (by omega), b64value_b64char _ (by omega)]
      simp only [Option.some_bind]
      rw [if_neg (b64char_ne_pad _), b64value_b64char _ (by omega)]
      simp only [Option.some_bind]
      rw [if_neg (b64char_ne_pad _), b64value_b64char _ (by omega)]
      simp only [Option.some_bind]
      rw [ih hrest]
      simp only [Option.map_some', Option.some.injEq, List.cons.injEq, and_true]
      omega
  | case2 b1 b2 =>
      have hb1 : b1 < 256 := h b1 (by simp)
      have hb2 : b2 < 256 := h b2 (by simp)
      simp only [b64encodeChunks, b64decodeChunks]
      rw [b64value_b64char _ (by omega), b64value_b64char _ (by omega)]
      simp only [Option.some_bind]
      rw [if_neg (b64char_ne_pad _), b64value_b64char _ (by omega)]
      simp only [Option.some_bind, and_self, if_true]
      simp only [Option.some.injEq, List.cons.injEq, and_true]
      omega
  | case3 b1 =>
      have hb1 : b1 < 256 := h b1 (by simp)
      simp only [b64encodeChunks, b64decodeChunks]
      rw [b64value_b64char _ (by omega), b64value_b64char _ (by omega)]
      simp only [Option.some_bind, and_self, if_true]
      simp only [Option.some.injEq, List.cons.injEq, and_true]
      omega
  | case4 => rfl

/-- String-level round trip: decoding inverts encoding on byte lists. -/
theorem b64decode_b64encode (bs : List Nat) (h : allBytes bs) :
    b64decode (b64encode bs) = some bs :=
  b64decodeChunks_b64encodeChunks bs h

/-- Encoding is injective on byte lists. -/
theorem b64encode_injective (bs1 bs2 : List Nat) (h1 : allBytes bs1)
    (h2 : allBytes bs2) (he : b64encode bs1 = b64encode bs2) : bs1 = bs2 := by
  have hd : b64decode (b64encode bs1) = b64decode (b64encode bs2) := by rw [he]
  rw [b64decode_b64encode bs1 h1, b64decode_b64encode bs2 h2] at hd
  exact Option.some.inj hd

/-- Character count of the encoding: four characters per started 3-byte group. -/
theorem b64encodeChunks_length (bs : List Nat) :
    (b64encodeChunks bs).length = 4 * ((bs.length + 2) / 3) := by
  induction bs using b64encodeChunks.induct with
  | case1 b1 b2 b3 rest ih =>
      simp only [b64encodeChunks, List.length_cons, ih]
      omega
  | case2 b1 b2 => simp [b64encodeChunks]
  | case3 b1 => simp [b64encodeChunks]
  | case4 => rfl

/-- Every character the encoder emits is an alphabet character or padding. -/
theorem b64encodeChunks_chars (bs : List Nat) (h : allBytes bs) :
    ∀ c ∈ b64encodeChunks bs, c ∈ b64alphabet ∨ c = '=' := by
  induction bs using b64encodeChunks.induct with
  | case1 b1 b2 b3 rest ih =>
      have hb1 : b1 < 256 := h b1 (by simp)
      have hb2 : b2 < 256 := h b2 (by simp)
      have hb3 : b3 < 256 := h b3 (by simp)
      have hrest : allBytes rest := fun b hb => h b (by simp [hb])
      intro c hc
      simp only [b64encodeChunks, List.mem_cons] at hc
      rcases hc with rfl | rfl | rfl | rfl | hc
      · exact Or.inl (b64char_mem _ (by omega))
      · exact Or.inl (b64char_mem _ (by omega))
      · exact Or.inl (b64char_mem _ (by omega))
      · exact Or.inl (b64char_mem _ (by omega))
      · exact ih hrest c hc
  | case2 b1 b2 =>
      have hb1 : b1 < 256 := h b1 (by simp)
      have hb2 : b2 < 256 := h b2 (by simp)
      intro c hc
      simp only [b64encodeChunks, List.mem_cons] at hc
      rcases hc with rfl | rfl | rfl | rfl | hc
      · exact Or.inl (b64char_mem _ (by omega))
      · exact Or.inl (b64char_mem _ (by omega))
      · exact Or.inl (b64char_mem _ (by omega))
      · exact Or.inr rfl
      · simp at hc
  | case3 b1 =>
      have hb1 : b1 < 256 := h b1 (by simp)
      intro c hc
      simp only [b64encodeChunks, List.mem_cons] at hc
      rcases hc with rfl | rfl | rfl | rfl | hc
      · exact Or.inl (b64char_mem _ (by omega))
      · exact Or.inl (b64char_mem _ (by omega))
      · exact Or.inr rfl
      · exact Or.inr rfl
      · simp at hc
  | case4 =>
      intro c hc
      simp [b64encodeChunks] at hc

/-- When the byte count is 2 modulo 3, the encoding is some padding-free
prefix followed by one alphabet character and exactly one `=`. -/
theorem b64encodeChunks_padding (bs : List Nat) (h : bs.length % 3 = 2) :
    ∃ cs c, b64encodeChunks bs = cs ++ [c, '='] ∧ c ≠ '=' ∧ '=' ∉ cs := by
  induction bs using b64encodeChunks.induct with
  | case1 b1 b2 b3 rest ih =>
      have hrest : rest.length % 3 = 2 := by
        simp only [List.length_cons] at h
        omega
      obtain ⟨cs, c, hcs, hc, hmem⟩ := ih hrest
      refine ⟨b64char ((b1 * 65536 + b2 * 256 + b3) / 262144) ::
        b64char ((b1 * 65536 + b2 * 256 + b3) / 4096 % 64) ::
        b64char ((b1 * 65536 + b2 * 256 + b3) / 64 % 64) ::
        b64char ((b1 * 65536 + b2 * 256 + b3) % 64) :: cs, c, ?_, hc, ?_⟩
      · simp only [b64encodeChunks, hcs]
        rfl
      · intro hmem2
        simp only [List.mem_cons] at hmem2
        rcases hmem2 with he | he | he | he | he
        · exact b64char_ne_pad _ he.symm
        · exact b64char_ne_pad _ he.symm
        · exact b64char_ne_pad _ he.symm
        · exact b64char_ne_pad _ he.symm
        · exact hmem he
  | case2 b1 b2 =>
      refine ⟨[b64char ((b1 * 1024 + b2 * 4) / 4096),
        b64char ((b1 * 1024 + b2 * 4) / 64 % 64)],
        b64char ((b1 * 1024 + b2 * 4) % 64), rfl, b64char_ne_pad _, ?_⟩
      intro hmem
      simp only [List.mem_cons, List.not_mem_nil, or_false] at hmem
      rcases hmem with he | he
      · exact b64char_ne_pad _ he.symm
      · exact b64char_ne_pad _ he.symm
  | case3 b1 => simp at h
  | case4 => simp at h

/-! ## Lemmas about the derivation output and the script runs -/

/-- A little-endian rendering has exactly the requested byte count. -/
theorem natToLEBytes_length (k n : Nat) : (natToLEBytes k n).length = k := by
  induction k generalizing n with
  | zero => rfl
  | succ m ih => simp [natToLEBytes, ih]

/-- Every entry of a little-endian rendering is a byte value. -/
theorem natToLEBytes_bytes (k n : Nat) : allBytes (natToLEBytes k n) := by
  induction k generalizing n with
  | zero => intro b hb; simp [natToLEBytes] at hb
  | succ m ih =>
      intro b hb
      simp only [natToLEBytes, List.mem_cons] at hb
      rcases hb with rfl | hb
      · exact Nat.mod_lt _ (by omega)
      · exact ih (n / 256) b hb

/-- The derived public key is exactly 32 bytes long. -/
theorem ed25519Derive_length (seed : List Nat) : (ed25519Derive seed).length = 32 := by
  unfold ed25519Derive pointCompress
  exact natToLEBytes_length 32 _

/-- Every entry of the derived public key is a byte value. -/
theorem ed25519Derive_bytes (seed : List Nat) : allBytes (ed25519Derive seed) := by
  unfold ed25519Derive pointCompress
  exact natToLEBytes_bytes 32 _

set_option maxRecDepth 100000 in
/-- Validation of the modelled derivation against RFC 8032, section 7.1,
test vector 1: the public key of seed `9d61b19d...1cae7f60` is
`d75a9801...f707511a`, checked by kernel evaluation. -/
theorem ed25519Derive_rfc8032_vector1 : ed25519Derive sampleSeed2 =
    [0xd7, 0x5a, 0x98, 0x01, 0x82, 0xb1, 0x0a, 0xb7, 0xd5, 0x4b, 0xfe, 0xd3,
     0xc9, 0x64, 0x07, 0x3a, 0x0e, 0xe1, 0x72, 0xf3, 0xda, 0xa6, 0x23, 0x25,
     0xaf, 0x02, 0x1a, 0x68, 0xf7, 0x07, 0x51, 0x1a] := by decide

/-- Space erasure distributes over string concatenation. -/
theorem stripSpaces_append (a b : String) :
    stripSpaces (a ++ b) = stripSpaces a ++ stripSpaces b := by
  rcases a with ⟨da⟩
  rcases b with ⟨db⟩
  show String.mk (List.filter _ (da ++ db)) =
    String.mk (List.filter _ da ++ List.filter _ db)
  rw [List.filter_append]

/-! ## Claim theorems -/

/-- C1: For every successful invocation, the two produced strings
(`seedEncoded` and `publicKeyEncoded`) each base64-decode to exactly
32 bytes. -/
theorem C1_encoded_values_decode_to_32_bytes (seed : List Nat)
    (h : validSeed seed) :
    ∃ sb pb, b64decode (seedEncoded seed) = some sb ∧ sb.length = 32 ∧
      b64decode (publicKeyEncoded seed) = some pb ∧ pb.length = 32 := by
  obtain ⟨hlen, hbytes⟩ := h
  exact ⟨seed, ed25519Derive seed, b64decode_b64encode seed hbytes, hlen,
    b64decode_b64encode _ (ed25519Derive_bytes seed), ed25519Derive_length seed⟩

/-- Witness for C1, at the concrete all-zero entropy draw. -/
theorem C1_encoded_values_decode_to_32_bytes_witness : validSeed sampleSeed ∧
    (∃ sb pb, b64decode (seedEncoded sampleSeed) = some sb ∧ sb.length = 32 ∧
      b64decode (publicKeyEncoded sampleSeed) = some pb ∧ pb.length = 32) :=
  ⟨by decide, C1_encoded_values_decode_to_32_bytes sampleSeed (by decide)⟩

/-- C2: For every successful invocation, applying the Ed25519 public-key
derivation to the base64-decoded seed reproduces exactly the base64-decoded
public key emitted by the same invocation. -/
theorem C2_rederivation_matches (seed : List Nat) (h : validSeed seed) :
    ∃ sb pb, b64decode (seedEncoded seed) = some sb ∧
      b64decode (publicKeyEncoded seed) = some pb ∧ ed25519Derive sb = pb := by
  obtain ⟨hlen, hbytes⟩ := h
  exact ⟨seed, ed25519Derive seed, b64decode_b64encode seed hbytes,
    b64decode_b64encode _ (ed25519Derive_bytes seed), rfl⟩

/-- Witness for C2, at the concrete all-zero entropy draw. -/
theorem C2_rederivation_matches_witness : validSeed sampleSeed ∧
    (∃ sb pb, b64decode (seedEncoded sampleSeed) = some sb ∧
      b64decode (publicKeyEncoded sampleSeed) = some pb ∧ ed25519Derive sb = pb) :=
  ⟨by decide, C2_rederivation_matches sampleSeed (by decide)⟩

/-- C3: Base64 as used by the program round-trips (decoding an encoding of
any 32-byte value restores it; re-encoding the decoding of any produced
string restores the string), and the encoder emits only standard-alphabet
characters with `=` padding and no URL-safe substitution. -/
theorem C3_base64_round_trip :
    (∀ bs, allBytes bs → bs.length = 32 → b64decode (b64encode bs) = some bs) ∧
    (∀ seed, validSeed seed →
      (∃ ds, b64decode (seedEncoded seed) = some ds ∧
        b64encode ds = seedEncoded seed) ∧
      (∃ dp, b64decode (publicKeyEncoded seed) = some dp ∧
        b64encode dp = publicKeyEncoded seed)) ∧
    (∀ bs, allBytes bs → ∀ c ∈ (b64encode bs).data, c ∈ b64alphabet ∨ c = '=') ∧
    '+' ∈ b64alphabet ∧ '/' ∈ b64alphabet ∧ '-' ∉ b64alphabet ∧ '_' ∉ b64alphabet := by
  refine ⟨fun bs hb _ => b64decode_b64encode bs hb, ?_, ?_, by decide, by decide,
    by decide, by decide⟩
  · intro seed ⟨hlen, hbytes⟩
    exact ⟨⟨seed, b64decode_b64encode seed hbytes, rfl⟩,
      ⟨ed25519Derive seed, b64decode_b64encode _ (ed25519Derive_bytes seed), rfl⟩⟩
  · intro bs hb
    exact b64encodeChunks_chars bs hb

/-- Witness for C3, at a concrete 32-byte value. -/
theorem C3_base64_round_trip_witness : allBytes sampleSeed ∧
    sampleSeed.length = 32 ∧ b64decode (b64encode sampleSeed) = some sampleSeed :=
  ⟨by decide, by decide,
    C3_base64_round_trip.1 sampleSeed (by decide) (by decide)⟩

/-- C4: Public-key derivation is deterministic: any two runs of the
derivation step from the same 32-byte seed produce identical public-key
bytes, and whole runs from the same draw coincide. -/
theorem C4_derivation_deterministic (s1 s2 : List Nat) (h : s1 = s2) :
    ed25519Derive s1 = ed25519Derive s2 ∧
    generate_keys_run (some s1) = generate_keys_run (some s2) ∧
    generate_ed25519_seed_run (some s1) = generate_ed25519_seed_run (some s2) := by
  subst h
  exact ⟨rfl, rfl, rfl⟩

/-- Witness for C4, two runs at the same concrete seed. -/
theorem C4_derivation_deterministic_witness : sampleSeed = sampleSeed ∧
    (ed25519Derive sampleSeed = ed25519Derive sampleSeed ∧
    generate_keys_run (some sampleSeed) = generate_keys_run (some sampleSeed) ∧
    generate_ed25519_seed_run (some sampleSeed) =
      generate_ed25519_seed_run (some sampleSeed)) :=
  ⟨rfl, C4_derivation_deterministic sampleSeed sampleSeed rfl⟩

/-- C5: Every successful invocation writes exactly two stdout lines in
fixed order: first the `ED25519_PRIVATE_KEY` line carrying the base64
seed, then the `ED25519_PUBLIC_KEY` line carrying the base64 public key
(label spacing differing between the two scripts). -/
theorem C5_two_labeled_lines (seed : List Nat) :
    (generate_keys_run (some seed)).stdoutLines =
      ["ED25519_PRIVATE_KEY = " ++ seedEncoded seed,
       "ED25519_PUBLIC_KEY  = " ++ publicKeyEncoded seed] ∧
    (generate_ed25519_seed_run (some seed)).stdoutLines =
      ["ED25519_PRIVATE_KEY= " ++ seedEncoded seed,
       "ED25519_PUBLIC_KEY = " ++ publicKeyEncoded seed] :=
  ⟨rfl, rfl⟩

/-- C6: `EntropyUnavailable` is the only failure: with no secure random
bytes the run emits no output lines and exits non-zero; every successful
run exits 0. The model retries nothing and has no fallback entropy path. -/
theorem C6_entropy_failure_is_fatal :
    (generate_keys_run none).stdoutLines = [] ∧
    (generate_keys_run none).exitCode ≠ 0 ∧
    (generate_ed25519_seed_run none).stdoutLines = [] ∧
    (generate_ed25519_seed_run none).exitCode ≠ 0 ∧
    (∀ seed, (generate_keys_run (some seed)).exitCode = 0) ∧
    (∀ seed, (generate_ed25519_seed_run (some seed)).exitCode = 0) :=
  ⟨rfl, by decide, rfl, by decide, fun _ => rfl, fun _ => rfl⟩

/-- C7: The emitted seed encoding is an injective image of the
invocation's own entropy draw, so two invocations whose fresh draws differ
emit different `seedEncoded` values. -/
theorem C7_distinct_draws_distinct_seeds (e1 e2 : List Nat)
    (h1 : validSeed e1) (h2 : validSeed e2) (hne : e1 ≠ e2) :
    seedEncoded e1 ≠ seedEncoded e2 := by
  intro he
  exact hne (b64encode_injective e1 e2 h1.2 h2.2 he)

/-- Witness for C7, at two concrete distinct entropy draws. -/
theorem C7_distinct_draws_distinct_seeds_witness : validSeed sampleSeed ∧
    validSeed sampleSeed2 ∧ sampleSeed ≠ sampleSeed2 ∧
    seedEncoded sampleSeed ≠ seedEncoded sampleSeed2 :=
  ⟨by decide, by decide, by decide,
    C7_distinct_draws_distinct_seeds sampleSeed sampleSeed2 (by decide)
      (by decide) (by decide)⟩

/-- C8: No state survives across invocations: in any sequence of runs,
the outcome of the i-th invocation is a function of the i-th entropy draw
alone, unaffected by every other invocation. -/
theorem C8_no_state_across_invocations (draws : List (Option (List Nat)))
    (i : Nat) :
    (runMany draws).getD i (generate_keys_run none) =
      generate_keys_run (draws.getD i none) := by
  induction draws generalizing i with
  | nil => rfl
  | cons d ds ih =>
      cases i with
      | zero => rfl
      | succ m => exact ih m

/-- C9: The two scripts are behaviorally equivalent up to label spacing:
same exit codes, and identical stdout lines once spaces are erased, for
every entropy outcome. -/
theorem C9_scripts_equivalent (seed : List Nat) :
    (generate_keys_run (some seed)).exitCode =
      (generate_ed25519_seed_run (some seed)).exitCode ∧
    (generate_keys_run (some seed)).stdoutLines.map stripSpaces =
      (generate_ed25519_seed_run (some seed)).stdoutLines.map stripSpaces ∧
    generate_keys_run none = generate_ed25519_seed_run none := by
  refine ⟨rfl, ?_, rfl⟩
  show [stripSpaces ("ED25519_PRIVATE_KEY = " ++ b64encode seed),
        stripSpaces ("ED25519_PUBLIC_KEY  = " ++ b64encode (ed25519Derive seed))] =
       [stripSpaces ("ED25519_PRIVATE_KEY= " ++ b64encode seed),
        stripSpaces ("ED25519_PUBLIC_KEY = " ++ b64encode (ed25519Derive seed))]
  rw [stripSpaces_append, stripSpaces_append, stripSpaces_append, stripSpaces_append]
  have h1 : stripSpaces "ED25519_PRIVATE_KEY = " =
      stripSpaces "ED25519_PRIVATE_KEY= " := by decide
  have h2 : stripSpaces "ED25519_PUBLIC_KEY  = " =
      stripSpaces "ED25519_PUBLIC_KEY = " := by decide
  rw [h1, h2]

/-- C10: Each emitted base64 string is exactly 44 characters and carries
exactly one `=`, at its final position. -/
theorem C10_encoded_length_and_padding (seed : List Nat) (h : validSeed seed) :
    (seedEncoded seed).length = 44 ∧
    (seedEncoded seed).data.getLast? = some '=' ∧
    '=' ∉ (seedEncoded seed).data.dropLast ∧
    (publicKeyEncoded seed).length = 44 ∧
    (publicKeyEncoded seed).data.getLast? = some '=' ∧
    '=' ∉ (publicKeyEncoded seed).data.dropLast := by
  obtain ⟨hlen, hbytes⟩ := h
  have key : ∀ bs : List Nat, bs.length = 32 →
      (String.mk (b64encodeChunks bs)).length = 44 ∧
      (b64encodeChunks bs).getLast? = some '=' ∧
      '=' ∉ (b64encodeChunks bs).dropLast := by
    intro bs hbs
    obtain ⟨cs, c, hcs, hc, hmem⟩ := b64encodeChunks_padding bs (by omega)
    refine ⟨?_, ?_, ?_⟩
    · show (b64encodeChunks bs).length = 44
      rw [b64encodeChunks_length, hbs]
    · rw [hcs, show cs ++ [c, '='] = (cs ++ [c]) ++ ['='] by simp]
      exact List.getLast?_concat _
    · rw [hcs, show cs ++ [c, '='] = (cs ++ [c]) ++ ['='] by simp,
        List.dropLast_concat]
      intro hin
      rcases List.mem_append.mp hin with hin | hin
      · exact hmem hin
      · simp only [List.mem_singleton] at hin
        exact hc hin.symm
  obtain ⟨l1, g1, m1⟩ := key seed hlen
  obtain ⟨l2, g2, m2⟩ := key (ed25519Derive seed) (ed25519Derive_length seed)
  exact ⟨l1, g1, m1, l2, g2, m2⟩

/-- Witness for C10, at the concrete all-zero entropy draw. -/
theorem C10_encoded_length_and_padding_witness : validSeed sampleSeed ∧
    ((seedEncoded sampleSeed).length = 44 ∧
    (seedEncoded sampleSeed).data.getLast? = some '=' ∧
    '=' ∉ (seedEncoded sampleSeed).data.dropLast ∧
    (publicKeyEncoded sampleSeed).length = 44 ∧
    (publicKeyEncoded sampleSeed).data.getLast? = some '=' ∧
    '=' ∉ (publicKeyEncoded sampleSeed).data.dropLast) :=
  ⟨by decide, C10_encoded_length_and_padding sampleSeed (by decide)⟩

end AutoTradeProCrypto
